import Mathlib

/-!
Shallow embedding of the todo-list core of this repository:
the pure utility module (text sanitization, validation, record
construction, lookup, equality) and the stateful todo store
(add, delete, toggle, save-edit, mark-all-completed).

Strings are modelled as `List Char`; JavaScript whitespace (the
class matched by `\s` and removed by `String.prototype.trim`) is
the predicate `isWs`.  Timestamps (`Date.now` / `new Date()`) and
generated ids are nondeterministic in the source, so every
operation that consumes them takes them as explicit parameters.
-/

namespace TodoSpec

/-- JavaScript whitespace: space, tab, line feed, vertical tab,
form feed, carriage return and no-break space (the characters the
source's `trim()` and `\s` both treat as whitespace). -/
def isWs (c : Char) : Bool :=
  c = ' ' || c = '\t' || c = '\n' || c = Char.ofNat 11 || c = Char.ofNat 12 ||
  c = '\r' || c = Char.ofNat 160

/-- Drop leading whitespace (the `^\s+` half of a trim). -/
def ltrim (l : List Char) : List Char := l.dropWhile isWs

/-- Drop trailing whitespace (the `\s+$` half of a trim). -/
def rtrim (l : List Char) : List Char := (l.reverse.dropWhile isWs).reverse

/-- Model of `String.prototype.trim` and of `replace(/^\s+|\s+$/g, '')`:
drop leading and trailing whitespace. -/
def jsTrim (l : List Char) : List Char := rtrim (ltrim l)

/-- Model of `replace(/\s+/g, ' ')`: the first character of each maximal
whitespace run becomes a single `' '`, the rest of the run is dropped.
The flag records whether the previous character was whitespace. -/
def collapseAux : Bool → List Char → List Char
  | _, [] => []
  | prevWs, c :: cs =>
    if isWs c then
      if prevWs then collapseAux true cs
      else ' ' :: collapseAux true cs
    else c :: collapseAux false cs

/-- Collapse every run of whitespace to a single space. -/
def collapseWs (l : List Char) : List Char := collapseAux false l

/-- `sanitizeTodoText` from the utility module:
`text.trim().replace(/\s+/g, ' ').replace(/^\s+|\s+$/g, '')`. -/
def sanitizeTodoText (l : List Char) : List Char :=
  jsTrim (collapseWs (jsTrim l))

/-- `TodoValidationConfig` from the types module. -/
structure TodoValidationConfig where
  minLength : Nat
  maxLength : Nat
  allowEmpty : Bool
deriving DecidableEq, Repr

/-- `DEFAULT_VALIDATION_CONFIG`: minLength 1, maxLength 500, empty text refused. -/
def DEFAULT_VALIDATION_CONFIG : TodoValidationConfig :=
  { minLength := 1, maxLength := 500, allowEmpty := false }

/-- `ValidationResult` from the types module. -/
structure ValidationResult where
  isValid : Bool
  errorMessage : Option String := none
deriving DecidableEq, Repr

/-- Error message for empty text. -/
def emptyTextMsg : String := "Le texte de la tâche ne peut pas être vide"

/-- Error message for text shorter than the configured minimum. -/
def tooShortMsg (n : Nat) : String :=
  "Le texte doit contenir au moins " ++ toString n ++ " caractère(s)"

/-- Error message for text longer than the configured maximum. -/
def tooLongMsg (n : Nat) : String :=
  "Le texte ne peut pas dépasser " ++ toString n ++ " caractères"

/-- `validateTodoText` from the utility module: trims the text, then
checks emptiness, minimum length and maximum length in that order,
first failure winning. -/
def validateTodoText (text : List Char) (config : TodoValidationConfig) :
    ValidationResult :=
  let trimmedText := jsTrim text
  if !config.allowEmpty && trimmedText.length == 0 then
    { isValid := false, errorMessage := some emptyTextMsg }
  else if trimmedText.length < config.minLength then
    { isValid := false, errorMessage := some (tooShortMsg config.minLength) }
  else if config.maxLength < trimmedText.length then
    { isValid := false, errorMessage := some (tooLongMsg config.maxLength) }
  else
    { isValid := true }

/-- `Todo` from the types module.  `createdAt` / `updatedAt` are the
millisecond timestamps of the `Date` objects. -/
structure Todo where
  id : String
  text : List Char
  completed : Bool
  createdAt : Nat
  updatedAt : Nat
deriving DecidableEq, Repr

/-- `CreateTodoInput` from the types module. -/
structure CreateTodoInput where
  text : List Char
  completed : Option Bool := none
deriving DecidableEq, Repr

/-- `createTodo`: builds a fresh record with trimmed text; the generated
id and the clock reading are taken as parameters. -/
def createTodo (newId : String) (now : Nat) (input : CreateTodoInput) : Todo :=
  { id := newId
    text := jsTrim input.text
    completed := input.completed.getD false
    createdAt := now
    updatedAt := now }

/-- Update record accepted by `updateTodo` (`{text?, completed?}`). -/
structure TodoUpdates where
  text : Option (List Char) := none
  completed : Option Bool := none
deriving DecidableEq, Repr

/-- `updateTodo`: spreads the existing record, overrides `text` (trimmed)
and `completed` when supplied, and stamps `updatedAt` with the clock. -/
def updateTodo (existingTodo : Todo) (updates : TodoUpdates) (now : Nat) : Todo :=
  { existingTodo with
    text := match updates.text with
      | some t => jsTrim t
      | none => existingTodo.text
    completed := updates.completed.getD existingTodo.completed
    updatedAt := now }

/-- `findTodoById`: first todo whose id matches. -/
def findTodoById (todos : List Todo) (id : String) : Option Todo :=
  todos.find? (fun todo => todo.id == id)

/-- `isTodoEqual`: content comparison on id, text and completed only. -/
def isTodoEqual (todo1 todo2 : Todo) : Bool :=
  todo1.id == todo2.id && todo1.text == todo2.text &&
  todo1.completed == todo2.completed

/-- `EditState` from the types module. -/
structure EditState where
  isEditing : Bool
  editingId : Option String
  editText : List Char
deriving DecidableEq, Repr

/-- The reset edit state (`isEditing: false, editingId: null, editText: ''`). -/
def idleEdit : EditState :=
  { isEditing := false, editingId := none, editText := [] }

/-- State owned by the `useTodos` hook: the collection, the shared input
buffer, the surfaced validation error, the busy flag and the edit slot. -/
structure TodosState where
  todos : List Todo
  inputText : List Char
  validationError : Option String
  isLoading : Bool
  editState : EditState
deriving DecidableEq, Repr

/-- A callback invocation recorded during an operation (`onError?.(msg)`
or `onSuccess?.(msg)` in the hook). -/
inductive CallbackCall where
  | onError (msg : String)
  | onSuccess (msg : String)
deriving DecidableEq, Repr

/-- Result of one hook operation: the state after all `setState` calls
have settled, the returned boolean, and the callbacks invoked. -/
structure OpResult where
  state : TodosState
  ok : Bool
  calls : List CallbackCall
deriving DecidableEq, Repr

/-- Convert a modelled text back to a `String`, for the messages the
hook interpolates into callbacks. -/
def ofChars (l : List Char) : String := String.mk l

/-- JavaScript truthiness of a nullable string id (`null` and `''` are
falsy), used by `saveEdit`'s `!editState.editingId` guard. -/
def idFalsy : Option String → Bool
  | none => true
  | some s => s == ""

/-- `validateInput` with no argument: sanitizes the current input buffer
and validates the sanitized text against the configured rules. -/
def validateInput (cfg : TodoValidationConfig) (s : TodosState) :
    ValidationResult :=
  validateTodoText (sanitizeTodoText s.inputText) cfg

/-- `addTodo`: validates the input buffer; on failure surfaces the error
and invokes the error callback; on success appends a freshly created todo
and clears the buffer and the error.  `isLoading` is set in a
`try`/`finally`, so it is `false` once the operation returns. -/
def addTodo (cfg : TodoValidationConfig) (newId : String) (now : Nat)
    (s : TodosState) : OpResult :=
  let validation := validateInput cfg s
  if validation.isValid = false then
    let msg := validation.errorMessage.getD "Erreur de validation"
    { state := { s with validationError := some msg, isLoading := false }
      ok := false
      calls := [CallbackCall.onError msg] }
  else
    let sanitizedText := sanitizeTodoText s.inputText
    let newTodo := createTodo newId now { text := sanitizedText }
    { state := { s with
        todos := s.todos ++ [newTodo]
        inputText := []
        validationError := none
        isLoading := false }
      ok := true
      calls := [CallbackCall.onSuccess
        ("Tâche \"" ++ ofChars sanitizedText ++ "\" ajoutée avec succès")] }

/-- `deleteTodo`: fails when the id is absent; otherwise filters the todo
out and, when that todo was the one under edit, resets the edit slot.
The input buffer is not touched. -/
def deleteTodo (id : String) (s : TodosState) : OpResult :=
  match findTodoById s.todos id with
  | none =>
    { state := { s with isLoading := false }
      ok := false
      calls := [CallbackCall.onError "Tâche introuvable"] }
  | some todoToDelete =>
    { state := { s with
        todos := s.todos.filter (fun todo => todo.id != id)
        editState := if s.editState.editingId == some id then idleEdit
          else s.editState
        isLoading := false }
      ok := true
      calls := [CallbackCall.onSuccess
        ("Tâche \"" ++ ofChars todoToDelete.text ++ "\" supprimée avec succès")] }

/-- `toggleTodo`: fails when the id is absent; otherwise maps the
collection, flipping `completed` on the matching todo via `updateTodo`. -/
def toggleTodo (id : String) (now : Nat) (s : TodosState) : OpResult :=
  match findTodoById s.todos id with
  | none =>
    { state := { s with isLoading := false }
      ok := false
      calls := [CallbackCall.onError "Tâche introuvable"] }
  | some todoToToggle =>
    { state := { s with
        todos := s.todos.map (fun todo =>
          if todo.id == id then
            updateTodo todo { completed := some (!todo.completed) } now
          else todo)
        isLoading := false }
      ok := true
      calls := [CallbackCall.onSuccess
        ("Tâche \"" ++ ofChars todoToToggle.text ++ "\" " ++
          (if !todoToToggle.completed then "marquée comme terminée"
            else "marquée comme en cours"))] }

/-- `saveEdit`: fails immediately — before touching any state — when not
editing (`!editState.isEditing || !editState.editingId`); otherwise
validates the input buffer like `addTodo`, and on success writes the
sanitized text into the edited todo, leaves edit mode and clears the
buffer and the error. -/
def saveEdit (cfg : TodoValidationConfig) (now : Nat) (s : TodosState) :
    OpResult :=
  if !s.editState.isEditing || idFalsy s.editState.editingId then
    { state := s
      ok := false
      calls := [CallbackCall.onError "Aucune édition en cours"] }
  else
    let validation := validateInput cfg s
    if validation.isValid = false then
      let msg := validation.errorMessage.getD "Erreur de validation"
      { state := { s with validationError := some msg, isLoading := false }
        ok := false
        calls := [CallbackCall.onError msg] }
    else
      let sanitizedText := sanitizeTodoText s.inputText
      { state := { s with
          todos := s.todos.map (fun todo =>
            if some todo.id == s.editState.editingId then
              updateTodo todo { text := some sanitizedText } now
            else todo)
          editState := idleEdit
          inputText := []
          validationError := none
          isLoading := false }
        ok := true
        calls := [CallbackCall.onSuccess
          ("Tâche modifiée en \"" ++ ofChars sanitizedText ++ "\"")] }

/-- `markAllCompleted`: maps the collection, leaving already-completed
todos untouched and completing the rest via `updateTodo`; always invokes
the success callback. -/
def markAllCompleted (now : Nat) (s : TodosState) : OpResult :=
  { state := { s with
      todos := s.todos.map (fun todo =>
        if todo.completed then todo
        else updateTodo todo { completed := some true } now) }
    ok := true
    calls := [CallbackCall.onSuccess
      "Toutes les tâches ont été marquées comme terminées"] }

/-! ### Structural invariants of sanitized text, and concrete fixtures -/

/-- The first character, if any, is not whitespace. -/
def noLeadB (l : List Char) : Bool := l.head?.all (fun c => !isWs c)

/-- The last character, if any, is not whitespace. -/
def noTrailB (l : List Char) : Bool := l.getLast?.all (fun c => !isWs c)

/-- A whitespace character is acceptable in collapsed text only when it
is a single `' '` not followed by further whitespace. -/
def wsOk (c : Char) (cs : List Char) : Bool :=
  if isWs c then c == ' ' && cs.head?.all (fun d => !isWs d) else true

/-- Text whose whitespace is fully collapsed: every whitespace character
is `' '` and is not followed by whitespace. -/
def collapsedB : List Char → Bool
  | [] => true
  | c :: cs => wsOk c cs && collapsedB cs

/-- Concrete sample todo used by the concrete-input theorems. -/
abbrev tSample : Todo :=
  { id := "t1", text := ['o', 'l', 'd'], completed := false,
    createdAt := 0, updatedAt := 0 }

/-- Concrete edit slot targeting `tSample`. -/
abbrev editingSlot : EditState :=
  { isEditing := true, editingId := some "t1", editText := ['o', 'l', 'd'] }

/-- Concrete store currently editing `tSample`, with its text loaded in
the shared input buffer. -/
abbrev sEditing : TodosState :=
  { todos := [tSample], inputText := ['o', 'l', 'd'],
    validationError := none, isLoading := false, editState := editingSlot }

/-- Concrete idle store. -/
abbrev sIdle : TodosState :=
  { todos := [tSample], inputText := ['x'],
    validationError := none, isLoading := false, editState := idleEdit }

/-- Concrete idle store whose input buffer holds only whitespace. -/
abbrev sBlank : TodosState :=
  { todos := [tSample], inputText := [' ', ' '],
    validationError := none, isLoading := false, editState := idleEdit }

theorem noLeadB_dropWhile (l : List Char) :
    noLeadB (l.dropWhile isWs) = true := by
  unfold noLeadB
  cases h : (l.dropWhile isWs).head? with
  | none => rfl
  | some c =>
    have hw := List.head?_dropWhile_not isWs l
    rw [h] at hw
    simp [hw]

theorem dropWhile_eq_self_of_noLead (l : List Char) (h : noLeadB l = true) :
    l.dropWhile isWs = l := by
  cases l with
  | nil => rfl
  | cons c cs =>
    have hc : isWs c = false := by simpa [noLeadB] using h
    simp [List.dropWhile_cons, hc]

theorem noLeadB_ltrim (l : List Char) : noLeadB (ltrim l) = true :=
  noLeadB_dropWhile l

theorem ltrim_eq_self (l : List Char) (h : noLeadB l = true) : ltrim l = l :=
  dropWhile_eq_self_of_noLead l h

theorem noTrailB_rtrim (l : List Char) : noTrailB (rtrim l) = true := by
  unfold noTrailB rtrim
  rw [List.getLast?_reverse]
  exact noLeadB_dropWhile l.reverse

theorem rtrim_eq_self (l : List Char) (h : noTrailB l = true) : rtrim l = l := by
  have hrev : noLeadB l.reverse = true := by
    unfold noLeadB
    rw [List.head?_reverse]
    exact h
  unfold rtrim
  rw [dropWhile_eq_self_of_noLead l.reverse hrev, List.reverse_reverse]

theorem rtrim_prefix (l : List Char) : ∃ t, rtrim l ++ t = l := by
  obtain ⟨t, ht⟩ := List.dropWhile_suffix (l := l.reverse) isWs
  refine ⟨t.reverse, ?_⟩
  have := congrArg List.reverse ht
  rw [List.reverse_append, List.reverse_reverse] at this
  exact this

theorem noLeadB_rtrim (l : List Char) (h : noLeadB l = true) :
    noLeadB (rtrim l) = true := by
  obtain ⟨t, ht⟩ := rtrim_prefix l
  cases hr : rtrim l with
  | nil => rfl
  | cons c cs =>
    rw [hr] at ht
    have hl : l.head? = some c := by rw [← ht]; rfl
    have hc : isWs c = false := by simpa [noLeadB, hl] using h
    simp [noLeadB, hc]

theorem jsTrim_eq_self (l : List Char) (h1 : noLeadB l = true)
    (h2 : noTrailB l = true) : jsTrim l = l := by
  unfold jsTrim
  rw [ltrim_eq_self l h1, rtrim_eq_self l h2]

theorem noLeadB_jsTrim (l : List Char) : noLeadB (jsTrim l) = true :=
  noLeadB_rtrim (ltrim l) (noLeadB_ltrim l)

theorem noTrailB_jsTrim (l : List Char) : noTrailB (jsTrim l) = true :=
  noTrailB_rtrim (ltrim l)

theorem noLeadB_collapseAux_true (l : List Char) :
    noLeadB (collapseAux true l) = true := by
  induction l with
  | nil => rfl
  | cons c cs ih =>
    by_cases hc : isWs c = true
    · simpa [collapseAux, hc] using ih
    · simp only [Bool.not_eq_true] at hc
      simp [collapseAux, hc, noLeadB]

theorem collapsedB_collapseAux (l : List Char) :
    ∀ b, collapsedB (collapseAux b l) = true := by
  induction l with
  | nil => intro b; rfl
  | cons c cs ih =>
    intro b
    by_cases hc : isWs c = true
    · cases b with
      | true => simpa [collapseAux, hc] using ih true
      | false =>
        have hhead := noLeadB_collapseAux_true cs
        simp only [noLeadB] at hhead
        simp [collapseAux, hc, collapsedB, wsOk, hhead, ih true]
    · simp only [Bool.not_eq_true] at hc
      simp [collapseAux, hc, collapsedB, wsOk, ih false]

theorem collapseAux_true_eq_false (l : List Char) (h : noLeadB l = true) :
    collapseAux true l = collapseAux false l := by
  cases l with
  | nil => rfl
  | cons c cs =>
    have hc : isWs c = false := by simpa [noLeadB] using h
    simp [collapseAux, hc]

theorem collapseAux_eq_self (l : List Char) (h : collapsedB l = true) :
    collapseAux false l = l := by
  induction l with
  | nil => rfl
  | cons c cs ih =>
    have hok : wsOk c cs = true := by
      have := h
      simp only [collapsedB, Bool.and_eq_true] at this
      exact this.1
    have hcs : collapsedB cs = true := by
      have := h
      simp only [collapsedB, Bool.and_eq_true] at this
      exact this.2
    by_cases hc : isWs c = true
    · have hsp : c = ' ' ∧ noLeadB cs = true := by
        simp only [wsOk, hc, if_true, Bool.and_eq_true, beq_iff_eq] at hok
        exact ⟨hok.1, hok.2⟩
      rw [collapseAux, if_pos hc, if_neg Bool.false_ne_true]
      rw [collapseAux_true_eq_false cs hsp.2, ih hcs, hsp.1]
    · simp only [Bool.not_eq_true] at hc
      simp [collapseAux, hc, ih hcs]

theorem collapsedB_dropWhile (l : List Char) (h : collapsedB l = true) :
    collapsedB (l.dropWhile isWs) = true := by
  induction l with
  | nil => exact h
  | cons c cs ih =>
    have hcs : collapsedB cs = true := by
      simp only [collapsedB, Bool.and_eq_true] at h
      exact h.2
    by_cases hc : isWs c = true
    · rw [List.dropWhile_cons, if_pos hc]
      exact ih hcs
    · rw [List.dropWhile_cons, if_neg hc]
      exact h

theorem collapsedB_append_left (m t : List Char)
    (h : collapsedB (m ++ t) = true) : collapsedB m = true := by
  induction m with
  | nil => rfl
  | cons c m' ih =>
    simp only [List.cons_append, collapsedB, Bool.and_eq_true] at h
    have hm' : collapsedB m' = true := ih h.2
    have hok : wsOk c m' = true := by
      by_cases hc : isWs c = true
      · have := h.1
        simp only [wsOk, hc, if_true, Bool.and_eq_true] at this ⊢
        refine ⟨this.1, ?_⟩
        cases m' with
        | nil => rfl
        | cons d ds => simpa using this.2
      · simp [wsOk, hc]
    simp [collapsedB, hok, hm']

theorem collapsedB_rtrim (l : List Char) (h : collapsedB l = true) :
    collapsedB (rtrim l) = true := by
  obtain ⟨t, ht⟩ := rtrim_prefix l
  exact collapsedB_append_left (rtrim l) t (by rw [ht]; exact h)

theorem collapsedB_jsTrim_collapse (l : List Char) (h : collapsedB l = true) :
    collapsedB (jsTrim l) = true :=
  collapsedB_rtrim (ltrim l) (collapsedB_dropWhile l h)

theorem noLeadB_sanitize (l : List Char) :
    noLeadB (sanitizeTodoText l) = true :=
  noLeadB_jsTrim (collapseWs (jsTrim l))

theorem noTrailB_sanitize (l : List Char) :
    noTrailB (sanitizeTodoText l) = true :=
  noTrailB_jsTrim (collapseWs (jsTrim l))

theorem collapsedB_sanitize (l : List Char) :
    collapsedB (sanitizeTodoText l) = true :=
  collapsedB_jsTrim_collapse (collapseWs (jsTrim l))
    (collapsedB_collapseAux (jsTrim l) false)

theorem jsTrim_sanitize (l : List Char) :
    jsTrim (sanitizeTodoText l) = sanitizeTodoText l :=
  jsTrim_eq_self _ (noLeadB_sanitize l) (noTrailB_sanitize l)

theorem collapseWs_sanitize (l : List Char) :
    collapseWs (sanitizeTodoText l) = sanitizeTodoText l :=
  collapseAux_eq_self _ (collapsedB_sanitize l)

/-! ### Validation messages are never empty -/

theorem emptyTextMsg_ne_empty : emptyTextMsg ≠ "" := by decide

theorem tooShortMsg_ne_empty (n : Nat) : tooShortMsg n ≠ "" := by
  intro h
  have h2 := congrArg String.data h
  rw [tooShortMsg, String.data_append, String.data_append,
    List.append_eq_nil, List.append_eq_nil] at h2
  exact (by decide : "Le texte doit contenir au moins ".data ≠ []) h2.1.1

theorem tooLongMsg_ne_empty (n : Nat) : tooLongMsg n ≠ "" := by
  intro h
  have h2 := congrArg String.data h
  rw [tooLongMsg, String.data_append, String.data_append,
    List.append_eq_nil, List.append_eq_nil] at h2
  exact (by decide : "Le texte ne peut pas dépasser ".data ≠ []) h2.1.1

/-! ### Lookup helpers -/

theorem findTodoById_of_mem (todos : List Todo) (x : String)
    (h : ∃ t ∈ todos, t.id = x) : ∃ t, findTodoById todos x = some t := by
  obtain ⟨t, hmem, hid⟩ := h
  have hsome : (todos.find? (fun todo => todo.id == x)).isSome = true := by
    rw [List.find?_isSome]
    exact ⟨t, hmem, by simp [hid]⟩
  obtain ⟨t', ht'⟩ := Option.isSome_iff_exists.mp hsome
  exact ⟨t', ht'⟩

theorem find?_map_id_preserving (f : Todo → Todo) (hf : ∀ t, (f t).id = t.id)
    (l : List Todo) (x : String) :
    (l.map f).find? (fun todo => todo.id == x) =
      Option.map f (l.find? (fun todo => todo.id == x)) := by
  induction l with
  | nil => rfl
  | cons a l ih =>
    by_cases h : (a.id == x) = true
    · rw [List.map_cons, List.find?_cons_of_pos l h,
        List.find?_cons_of_pos (l.map f) (by rw [hf]; exact h)]
      rfl
    · rw [List.map_cons, List.find?_cons_of_neg l h,
        List.find?_cons_of_neg (l.map f) (by rw [hf]; exact h), ih]

/-! ### Claims -/

/-- C9: `sanitize` is idempotent: for every string `x`,
`sanitize (sanitize x) = sanitize x`, where `sanitize` trims
leading/trailing whitespace and collapses internal whitespace runs. -/
theorem sanitizeTodoText_idempotent (x : List Char) :
    sanitizeTodoText (sanitizeTodoText x) = sanitizeTodoText x :=
  calc sanitizeTodoText (sanitizeTodoText x)
      = jsTrim (collapseWs (jsTrim (sanitizeTodoText x))) := rfl
    _ = jsTrim (collapseWs (sanitizeTodoText x)) := by rw [jsTrim_sanitize]
    _ = jsTrim (sanitizeTodoText x) := by rw [collapseWs_sanitize]
    _ = sanitizeTodoText x := jsTrim_sanitize x

/-- C10: `isTodoEqual` compares exactly the id, text and completed fields:
it returns true precisely when the two todos agree on those three fields,
so the `createdAt` / `updatedAt` timestamps play no role. -/
theorem isTodoEqual_iff (todo1 todo2 : Todo) :
    isTodoEqual todo1 todo2 = true ↔
      todo1.id = todo2.id ∧ todo1.text = todo2.text ∧
      todo1.completed = todo2.completed := by
  simp [isTodoEqual, and_assoc]

/-- C4 counterexample: `updateTodo` given text containing an internal
double space keeps it as-is (it only trims), so the updated text differs
from the sanitized text the claim promises. -/
theorem updateTodo_sanitize_cex :
    (updateTodo
      { id := "t1", text := ['a'], completed := false,
        createdAt := 0, updatedAt := 0 }
      { text := some ['a', ' ', ' ', 'b'], completed := none } 5).text ≠
      sanitizeTodoText ['a', ' ', ' ', 'b'] := by decide

/-- C4 (amended): `updateTodo` returns a record in which the requested
fields are replaced — the text trimmed (but not whitespace-collapsed) when
provided — `updatedAt` is refreshed to now, and id, createdAt, and any
field not present in the update are preserved unchanged. -/
theorem updateTodo_frame (t : Todo) (u : TodoUpdates) (now : Nat) :
    (updateTodo t u now).id = t.id ∧
    (updateTodo t u now).createdAt = t.createdAt ∧
    (updateTodo t u now).updatedAt = now ∧
    (∀ x, u.text = some x → (updateTodo t u now).text = jsTrim x) ∧
    (u.text = none → (updateTodo t u now).text = t.text) ∧
    (∀ b, u.completed = some b → (updateTodo t u now).completed = b) ∧
    (u.completed = none → (updateTodo t u now).completed = t.completed) := by
  refine ⟨rfl, rfl, rfl, ?_, ?_, ?_, ?_⟩ <;> intros <;> simp [updateTodo, *]

/-- C5 counterexample: with bounds `minLength 1 / maxLength 3` and text
`"a  b"`, every rule of the claim — judged against `sanitize(text)`,
which is `"a b"` of length 3 — passes, yet `validateTodoText` (which
judges the merely trimmed text of length 4) rejects the text. -/
theorem validateTodoText_sanitize_cex :
    sanitizeTodoText ['a', ' ', ' ', 'b'] ≠ [] ∧
    1 ≤ (sanitizeTodoText ['a', ' ', ' ', 'b']).length ∧
    (sanitizeTodoText ['a', ' ', ' ', 'b']).length ≤ 3 ∧
    (validateTodoText ['a', ' ', ' ', 'b']
      { minLength := 1, maxLength := 3, allowEmpty := false }).isValid
      = false := by decide

/-- C5 (amended): `validateTodoText` applies its rules in order with the
first failure winning, each rule judged against the trimmed (not fully
sanitized) text: emptiness when empty text is disallowed, then the
minimum-length bound, then the maximum-length bound; otherwise valid. -/
theorem validateTodoText_rules (text : List Char)
    (config : TodoValidationConfig) :
    (config.allowEmpty = false ∧ (jsTrim text).length = 0 →
      validateTodoText text config =
        { isValid := false, errorMessage := some emptyTextMsg }) ∧
    (¬(config.allowEmpty = false ∧ (jsTrim text).length = 0) →
      ((jsTrim text).length < config.minLength →
        validateTodoText text config =
          { isValid := false,
            errorMessage := some (tooShortMsg config.minLength) }) ∧
      (¬((jsTrim text).length < config.minLength) →
        (config.maxLength < (jsTrim text).length →
          validateTodoText text config =
            { isValid := false,
              errorMessage := some (tooLongMsg config.maxLength) }) ∧
        (¬(config.maxLength < (jsTrim text).length) →
          validateTodoText text config = { isValid := true }))) := by
  have hc1 : ((!config.allowEmpty && (jsTrim text).length == 0) = true) ↔
      (config.allowEmpty = false ∧ (jsTrim text).length = 0) := by
    simp
  constructor
  · intro h
    unfold validateTodoText
    rw [if_pos (hc1.mpr h)]
  · intro h1
    constructor
    · intro h2
      unfold validateTodoText
      rw [if_neg (fun hx => h1 (hc1.mp hx)), if_pos h2]
    · intro h2
      constructor
      · intro h3
        unfold validateTodoText
        rw [if_neg (fun hx => h1 (hc1.mp hx)), if_neg h2, if_pos h3]
      · intro h3
        unfold validateTodoText
        rw [if_neg (fun hx => h1 (hc1.mp hx)), if_neg h2, if_neg h3]

/-- C8: `markAllCompleted` is idempotent: applying it twice (at any two
clock readings) yields exactly the result of applying it once, because
already-completed todos are left entirely untouched. -/
theorem markAllCompleted_idempotent (now1 now2 : Nat) (s : TodosState) :
    markAllCompleted now2 ((markAllCompleted now1 s).state) =
      markAllCompleted now1 s := by
  have hmap : ((s.todos.map (fun t => if t.completed then t
        else updateTodo t { completed := some true } now1)).map
      (fun t => if t.completed then t
        else updateTodo t { completed := some true } now2)) =
      s.todos.map (fun t => if t.completed then t
        else updateTodo t { completed := some true } now1) := by
    rw [List.map_map]
    apply List.map_congr_left
    intro t _
    by_cases h : t.completed = true
    · simp [Function.comp, h]
    · simp only [Bool.not_eq_true] at h
      simp [Function.comp, h, updateTodo]
  unfold markAllCompleted
  simp only [hmap]

/-- C6: `saveEdit` called while not editing (`isEditing` false or
`editingId` null) fails immediately: it returns failure, invokes the
error callback, and leaves the whole store state — collection, edit
state and input buffer — unchanged. -/
theorem saveEdit_not_editing_noop (cfg : TodoValidationConfig) (now : Nat)
    (s : TodosState)
    (h : s.editState.isEditing = false ∨ s.editState.editingId = none) :
    saveEdit cfg now s =
      { state := s, ok := false,
        calls := [CallbackCall.onError "Aucune édition en cours"] } := by
  have hguard : (!s.editState.isEditing || idFalsy s.editState.editingId)
      = true := by
    rcases h with h | h <;> simp [h, idFalsy]
  unfold saveEdit
  rw [if_pos hguard]

/-- C6 witness: a concrete idle store is left unchanged by `saveEdit`. -/
theorem saveEdit_not_editing_noop_witness :
    saveEdit DEFAULT_VALIDATION_CONFIG 7 sIdle =
      { state := sIdle, ok := false,
        calls := [CallbackCall.onError "Aucune édition en cours"] } :=
  saveEdit_not_editing_noop DEFAULT_VALIDATION_CONFIG 7 sIdle (Or.inl rfl)

/-- C3 counterexample: deleting the task under edit does remove it and
reset the edit slot, but does not clear the shared input buffer, which
still holds the text being edited. -/
theorem deleteTodo_input_buffer_cex :
    (deleteTodo "t1" sEditing).state.todos = [] ∧
    (deleteTodo "t1" sEditing).state.editState = idleEdit ∧
    (deleteTodo "t1" sEditing).state.inputText ≠ [] := by
  have hin : (deleteTodo "t1" sEditing).state.inputText = ['o', 'l', 'd'] := by
    rfl
  exact ⟨by rfl, by rfl, by rw [hin]; exact List.cons_ne_nil _ _⟩

/-- C3 (amended): when the store is editing the task with id `x` and `x`
is present, `deleteTodo x` succeeds, removes the task and resets the edit
state to IDLE; the shared input buffer is left unchanged (the hook does
not clear it). -/
theorem deleteTodo_while_editing (x : String) (s : TodosState)
    (_hedit : s.editState.isEditing = true)
    (hid : s.editState.editingId = some x)
    (hpresent : ∃ t ∈ s.todos, t.id = x) :
    (deleteTodo x s).ok = true ∧
    (deleteTodo x s).state.todos = s.todos.filter (fun t => t.id != x) ∧
    (deleteTodo x s).state.editState = idleEdit ∧
    (deleteTodo x s).state.inputText = s.inputText := by
  obtain ⟨t, ht⟩ := findTodoById_of_mem s.todos x hpresent
  unfold deleteTodo
  rw [ht]
  refine ⟨rfl, rfl, ?_, rfl⟩
  simp [hid]

/-- C3 witness: the amended claim at the concrete editing store of the
counterexample. -/
theorem deleteTodo_while_editing_witness :
    (deleteTodo "t1" sEditing).ok = true ∧
    (deleteTodo "t1" sEditing).state.todos =
      sEditing.todos.filter (fun t => t.id != "t1") ∧
    (deleteTodo "t1" sEditing).state.editState = idleEdit ∧
    (deleteTodo "t1" sEditing).state.inputText = sEditing.inputText :=
  deleteTodo_while_editing "t1" sEditing rfl rfl (by decide)

/-- Characterization of `toggleTodo` when the id is found. -/
theorem toggleTodo_found (x : String) (now : Nat) (s : TodosState) (t : Todo)
    (ht : findTodoById s.todos x = some t) :
    toggleTodo x now s =
      { state := { s with
          todos := s.todos.map (fun todo =>
            if todo.id == x then
              updateTodo todo { completed := some (!todo.completed) } now
            else todo)
          isLoading := false }
        ok := true
        calls := [CallbackCall.onSuccess
          ("Tâche \"" ++ ofChars t.text ++ "\" " ++
            (if !t.completed then "marquée comme terminée"
              else "marquée comme en cours"))] } := by
  unfold toggleTodo
  rw [ht]

/-- C7: toggling a present id twice restores the original `completed`
value of every task with that id while refreshing `updatedAt` on both
calls (first to `now1`, then to `now2`); every other task is unchanged,
and both calls succeed. -/
theorem toggleTodo_involution (x : String) (now1 now2 : Nat)
    (s : TodosState) (hpresent : ∃ t ∈ s.todos, t.id = x) :
    (toggleTodo x now1 s).ok = true ∧
    (toggleTodo x now1 s).state.todos =
      s.todos.map (fun t => if t.id = x then
        { t with completed := !t.completed, updatedAt := now1 } else t) ∧
    (toggleTodo x now2 (toggleTodo x now1 s).state).ok = true ∧
    (toggleTodo x now2 (toggleTodo x now1 s).state).state.todos =
      s.todos.map (fun t => if t.id = x then
        { t with updatedAt := now2 } else t) := by
  obtain ⟨t1, ht1⟩ := findTodoById_of_mem s.todos x hpresent
  have hstate1 : (toggleTodo x now1 s).state.todos =
      s.todos.map (fun t => if t.id = x then
        { t with completed := !t.completed, updatedAt := now1 } else t) := by
    rw [toggleTodo_found x now1 s t1 ht1]
    apply List.map_congr_left
    intro t _
    by_cases h : t.id = x
    · simp [h, updateTodo]
    · simp [h]
  have hok1 : (toggleTodo x now1 s).ok = true := by
    rw [toggleTodo_found x now1 s t1 ht1]
  have hpresent2 : ∃ t ∈ (toggleTodo x now1 s).state.todos, t.id = x := by
    obtain ⟨t, hmem, hid⟩ := hpresent
    rw [hstate1]
    refine ⟨(fun t => if t.id = x then
      { t with completed := !t.completed, updatedAt := now1 } else t) t,
      List.mem_map_of_mem _ hmem, ?_⟩
    simp [hid]
  obtain ⟨t2, ht2⟩ := findTodoById_of_mem _ x hpresent2
  have hok2 : (toggleTodo x now2 (toggleTodo x now1 s).state).ok = true := by
    rw [toggleTodo_found x now2 _ t2 ht2]
  have hstate2 : (toggleTodo x now2 (toggleTodo x now1 s).state).state.todos =
      s.todos.map (fun t => if t.id = x then
        { t with updatedAt := now2 } else t) := by
    rw [toggleTodo_found x now2 _ t2 ht2]
    show ((toggleTodo x now1 s).state.todos.map (fun todo =>
      if todo.id == x then
        updateTodo todo { completed := some (!todo.completed) } now2
      else todo)) = _
    rw [hstate1, List.map_map]
    apply List.map_congr_left
    intro t _
    by_cases h : t.id = x
    · simp [Function.comp, h, updateTodo]
    · simp [Function.comp, h]
  exact ⟨hok1, hstate1, hok2, hstate2⟩

/-- C7 witness: toggling the sample todo twice in the concrete editing
store restores its completed flag and refreshes its timestamp. -/
theorem toggleTodo_involution_witness :
    (toggleTodo "t1" 3 sEditing).ok = true ∧
    (toggleTodo "t1" 3 sEditing).state.todos =
      sEditing.todos.map (fun t => if t.id = "t1" then
        { t with completed := !t.completed, updatedAt := 3 } else t) ∧
    (toggleTodo "t1" 4 (toggleTodo "t1" 3 sEditing).state).ok = true ∧
    (toggleTodo "t1" 4 (toggleTodo "t1" 3 sEditing).state).state.todos =
      sEditing.todos.map (fun t => if t.id = "t1" then
        { t with updatedAt := 4 } else t) :=
  toggleTodo_involution "t1" 3 4 sEditing (by decide)

/-- C1: when the sanitized input buffer satisfies the configured rules
(non-empty when empty text is disallowed, and within the length bounds),
`addTodo` succeeds, appends exactly one new task at the end — all earlier
tasks keeping position and value — whose text is the sanitized input and
whose completed flag is false, and clears the input buffer and the
validation error. -/
theorem addTodo_valid_appends (cfg : TodoValidationConfig) (newId : String)
    (now : Nat) (s : TodosState)
    (hne : cfg.allowEmpty = false → sanitizeTodoText s.inputText ≠ [])
    (hmin : cfg.minLength ≤ (sanitizeTodoText s.inputText).length)
    (hmax : (sanitizeTodoText s.inputText).length ≤ cfg.maxLength) :
    (addTodo cfg newId now s).ok = true ∧
    (addTodo cfg newId now s).state.todos = s.todos ++
      [{ id := newId, text := sanitizeTodoText s.inputText,
         completed := false, createdAt := now, updatedAt := now }] ∧
    (addTodo cfg newId now s).state.inputText = [] ∧
    (addTodo cfg newId now s).state.validationError = none := by
  have hval : (validateInput cfg s).isValid = true := by
    simp only [validateInput, validateTodoText]
    rw [jsTrim_sanitize]
    have h1 : (!cfg.allowEmpty &&
        (sanitizeTodoText s.inputText).length == 0) = false := by
      cases hae : cfg.allowEmpty with
      | true => simp
      | false =>
        have hst := hne hae
        simp [List.length_eq_zero, hst]
    rw [h1, if_neg Bool.false_ne_true, if_neg (not_lt.mpr hmin),
      if_neg (not_lt.mpr hmax)]
  have heq : addTodo cfg newId now s =
      { state := { s with
          todos := s.todos ++
            [createTodo newId now { text := sanitizeTodoText s.inputText }]
          inputText := []
          validationError := none
          isLoading := false }
        ok := true
        calls := [CallbackCall.onSuccess
          ("Tâche \"" ++ ofChars (sanitizeTodoText s.inputText) ++
            "\" ajoutée avec succès")] } := by
    simp only [addTodo]
    rw [if_neg (fun h => Bool.noConfusion (hval.symm.trans h))]
  have hnew : createTodo newId now { text := sanitizeTodoText s.inputText } =
      { id := newId, text := sanitizeTodoText s.inputText,
        completed := false, createdAt := now, updatedAt := now } := by
    simp only [createTodo, jsTrim_sanitize]
    rfl
  refine ⟨?_, ?_, ?_, ?_⟩ <;> rw [heq]
  rw [hnew]

/-- C1 witness: adding from the concrete idle store appends one task. -/
theorem addTodo_valid_appends_witness :
    (addTodo DEFAULT_VALIDATION_CONFIG "todo_9" 42 sIdle).ok = true ∧
    (addTodo DEFAULT_VALIDATION_CONFIG "todo_9" 42 sIdle).state.todos =
      sIdle.todos ++
      [{ id := "todo_9", text := sanitizeTodoText sIdle.inputText,
         completed := false, createdAt := 42, updatedAt := 42 }] ∧
    (addTodo DEFAULT_VALIDATION_CONFIG "todo_9" 42 sIdle).state.inputText
      = [] ∧
    (addTodo DEFAULT_VALIDATION_CONFIG "todo_9" 42 sIdle).state.validationError
      = none :=
  addTodo_valid_appends DEFAULT_VALIDATION_CONFIG "todo_9" 42 sIdle
    (fun _ => by decide) (by decide) (by decide)

/-- C2: when the sanitized input buffer violates the configured rules
(empty while disallowed, shorter than the minimum, or longer than the
maximum), `addTodo` fails, leaves the task collection unchanged, surfaces
a non-empty validation error message, and invokes the error callback with
that same message. -/
theorem addTodo_invalid_noop (cfg : TodoValidationConfig) (newId : String)
    (now : Nat) (s : TodosState)
    (hbad : (cfg.allowEmpty = false ∧ sanitizeTodoText s.inputText = []) ∨
      (sanitizeTodoText s.inputText).length < cfg.minLength ∨
      cfg.maxLength < (sanitizeTodoText s.inputText).length) :
    (addTodo cfg newId now s).ok = false ∧
    (addTodo cfg newId now s).state.todos = s.todos ∧
    ∃ m, (addTodo cfg newId now s).state.validationError = some m ∧
      m ≠ "" ∧ (addTodo cfg newId now s).calls = [CallbackCall.onError m] := by
  have hval : (validateInput cfg s).isValid = false ∧
      ∃ m, (validateInput cfg s).errorMessage = some m ∧ m ≠ "" := by
    simp only [validateInput, validateTodoText]
    rw [jsTrim_sanitize]
    by_cases h1 : (!cfg.allowEmpty &&
        (sanitizeTodoText s.inputText).length == 0) = true
    · rw [if_pos h1]
      exact ⟨rfl, emptyTextMsg, rfl, emptyTextMsg_ne_empty⟩
    · rw [if_neg h1]
      by_cases h2 : (sanitizeTodoText s.inputText).length < cfg.minLength
      · rw [if_pos h2]
        exact ⟨rfl, _, rfl, tooShortMsg_ne_empty _⟩
      · rw [if_neg h2]
        by_cases h3 : cfg.maxLength < (sanitizeTodoText s.inputText).length
        · rw [if_pos h3]
          exact ⟨rfl, _, rfl, tooLongMsg_ne_empty _⟩
        · exfalso
          rcases hbad with ⟨hae, hnil⟩ | hlt | hgt
          · exact h1 (by simp [hae, hnil])
          · exact h2 hlt
          · exact h3 hgt
  obtain ⟨hv, m, hm, hmne⟩ := hval
  have hmsg : (validateInput cfg s).errorMessage.getD "Erreur de validation"
      = m := by
    rw [hm]
    rfl
  have heq : addTodo cfg newId now s =
      { state := { s with validationError := some m, isLoading := false }
        ok := false
        calls := [CallbackCall.onError m] } := by
    simp only [addTodo]
    rw [if_pos hv, hmsg]
  exact ⟨by rw [heq], by rw [heq], m, by rw [heq], hmne, by rw [heq]⟩

/-- C2 witness: adding from the concrete whitespace-only store fails and
leaves the collection unchanged. -/
theorem addTodo_invalid_noop_witness :
    (addTodo DEFAULT_VALIDATION_CONFIG "todo_9" 42 sBlank).ok = false ∧
    (addTodo DEFAULT_VALIDATION_CONFIG "todo_9" 42 sBlank).state.todos
      = sBlank.todos ∧
    ∃ m, (addTodo DEFAULT_VALIDATION_CONFIG "todo_9" 42
        sBlank).state.validationError = some m ∧
      m ≠ "" ∧ (addTodo DEFAULT_VALIDATION_CONFIG "todo_9" 42 sBlank).calls
        = [CallbackCall.onError m] :=
  addTodo_invalid_noop DEFAULT_VALIDATION_CONFIG "todo_9" 42 sBlank
    (Or.inl ⟨rfl, by decide⟩)

end TodoSpec
